import Mathlib

/-!
Verification development for the qf-lib backtest-overfitting analysis and the
multi-factor portfolio model.

The repository sources under study are
`qf_lib/analysis/backtests_overfitting/backtest_overfitting_sheet.py` and
`qf_lib/portfolio_construction/portfolio_models/multifactor_portfolio.py`.
The combinatorial overfitting engine (`OverfittingAnalysis`, imported by the
sheet) is not among the available sources, so it is modelled from the
specification; every such definition carries a doc comment starting with
`Modelled from the spec:`.  Machine reals are modelled by `ℚ`; Python
exceptions by an explicit error type threaded through `Except`.
-/

/-- Errors raised by the analysed code: `ConfigurationError` (invalid
`num_of_slices`) and `ValueError` (bad argument combination in
`setup_overfitting_analysis`). -/
inductive QfError where
  | configurationError
  | valueError
deriving DecidableEq, Repr

/-- Modelled from the spec: the ReturnsPanel consumed by the missing
`OverfittingAnalysis` engine — an ordered sequence of observations (rows),
each row holding one simple return per strategy column. -/
structure ReturnsPanel where
  numStrategies : ℕ
  rows : List (List ℚ)
deriving Repr

/-- A fallible ranking function: strategy return series to scalar quality,
`none` modelling a Python exception raised on a degenerate sub-panel. -/
def RankFn : Type := List ℚ → Option ℚ

/-- Modelled from the spec: the slice index a panel row belongs to when the
row count `T` is divided into `n` contiguous near-equal blocks, the last
block absorbing the remainder. -/
def sliceIndexOfRow (T n r : ℕ) : ℕ :=
  min (r / (T / n)) (n - 1)

/-- Modelled from the spec: the Partition Generator's enumeration of all
balanced IS slice-subsets — every length-`n/2` sublist of `[0, …, n-1]`,
in a fixed deterministic order. -/
def combinations (n : ℕ) : List (List ℕ) :=
  (List.range n).sublistsLen (n / 2)

/-- The OOS complement of an IS slice-index set: all slice indices below `n`
not designated IS. -/
def oosComplement (n : ℕ) (isSet : List ℕ) : List ℕ :=
  (List.range n).filter (fun i => decide (i ∉ isSet))

/-- Modelled from the spec: the return series of strategy `j` restricted to
the rows whose slice index lies in `isSet`. -/
def subSeries (p : ReturnsPanel) (n : ℕ) (isSet : List ℕ) (j : ℕ) : List ℚ :=
  (p.rows.enum.filter
      (fun ie => decide (sliceIndexOfRow p.rows.length n ie.1 ∈ isSet))).map
    (fun ie => ie.2.getD j 0)

/-- Modelled from the spec: the Ranking Evaluator's scores — the ranking
function applied to every strategy's sub-series; `none` as soon as the
ranking function fails on one of them. -/
def scoresOf (p : ReturnsPanel) (n : ℕ) (isSet : List ℕ) (f : RankFn) :
    Option (List ℚ) :=
  (List.range p.numStrategies).mapM (fun j => f (subSeries p n isSet j))

/-- Modelled from the spec: the 1-based rank of strategy `j` (rank 1 = best),
ties broken deterministically by strategy position. -/
def rankOf (scores : List ℚ) (j : ℕ) : ℕ :=
  1 + scores.enum.countP
    (fun iq => decide (scores.getD j 0 < iq.2 ∨ (iq.2 = scores.getD j 0 ∧ iq.1 < j)))

/-- Modelled from the spec: the IS-optimal strategy — the index holding
rank 1 in the IS ranking table. -/
def bestStrategy (scores : List ℚ) : ℕ :=
  (List.range scores.length).findIdx (fun j => decide (rankOf scores j = 1))

/-- Modelled from the spec: the per-combination record kept by the engine —
both ranking tables' scores, the IS winner, and the winner's OOS rank and
OOS quality score. -/
structure CombRecord where
  isScores : List ℚ
  oosScores : List ℚ
  winner : ℕ
  winnerOosRank : ℕ
  winnerOosQuality : ℚ
deriving Repr

/-- Modelled from the spec: evaluation of one combination — compute IS and
OOS scores, pick the IS winner, record its OOS rank and quality; `none`
(combination excluded) when the ranking function fails on either sub-panel. -/
def evalCombination (p : ReturnsPanel) (n : ℕ) (f : RankFn) (isSet : List ℕ) :
    Option CombRecord :=
  match scoresOf p n isSet f, scoresOf p n (oosComplement n isSet) f with
  | some isS, some oosS =>
    let w := bestStrategy isS
    some { isScores := isS, oosScores := oosS, winner := w,
           winnerOosRank := rankOf oosS w, winnerOosQuality := oosS.getD w 0 }
  | _, _ => none

/-- Modelled from the spec: the `OverfittingAnalysis` engine store — one
fixed ranking function's accumulated per-combination records, immutable
after construction. -/
structure OverfittingAnalysis where
  num_of_strategies : ℕ
  num_of_slices : ℕ
  combos : List (List ℕ)
  records : List (Option CombRecord)

/-- Modelled from the spec: the engine built once validation has passed —
all combinations enumerated and evaluated eagerly. -/
def engineOf (p : ReturnsPanel) (f : RankFn) (numOfSlices : ℕ) :
    OverfittingAnalysis :=
  { num_of_strategies := p.numStrategies
    num_of_slices := numOfSlices
    combos := combinations numOfSlices
    records := (combinations numOfSlices).map (evalCombination p numOfSlices f) }

/-- Modelled from the spec: `OverfittingAnalysis` construction — raises
`ConfigurationError` when `num_of_slices` is odd, below 2, or exceeds the
panel's row count; otherwise builds the engine store. -/
def mkOverfittingAnalysis (p : ReturnsPanel) (f : RankFn) (numOfSlices : ℕ) :
    Except QfError OverfittingAnalysis :=
  if numOfSlices % 2 = 1 ∨ numOfSlices < 2 ∨ p.rows.length < numOfSlices then
    .error .configurationError
  else
    .ok (engineOf p f numOfSlices)

/-- Modelled from the spec: the logit of an OOS rank among `numStrategies`
strategies as the spec's "equivalent monotone transform of relative OOS
standing" — zero exactly when the rank is the median `(N+1)/2`, positive
(outperforming the OOS median) for better-than-median ranks (rank 1 = best),
negative below. -/
def logitOfRank (numStrategies rank : ℕ) : ℚ :=
  ((numStrategies : ℚ) + 1) - 2 * (rank : ℚ)

/-- The valid (non-excluded) per-combination records of an engine store. -/
def validRecords (e : OverfittingAnalysis) : List CombRecord :=
  e.records.filterMap id

/-- Count of combinations excluded because the ranking function failed. -/
def skippedCount (e : OverfittingAnalysis) : ℕ :=
  e.records.countP (fun r => r.isNone)

/-- Modelled from the spec: `calculate_relative_rank_logits` — one logit per
valid combination, from the OOS rank of the IS-selected strategy. -/
def calculate_relative_rank_logits (e : OverfittingAnalysis) : List ℚ :=
  (validRecords e).map (fun r => logitOfRank e.num_of_strategies r.winnerOosRank)

/-- Modelled from the spec: `calculate_overfitting_probability` (PBO) — the
fraction of valid combinations whose logit is at most zero. -/
def calculate_overfitting_probability (e : OverfittingAnalysis) : ℚ :=
  (((calculate_relative_rank_logits e).countP (fun l => decide (l ≤ 0)) : ℕ) : ℚ) /
    ((calculate_relative_rank_logits e).length : ℚ)

/-- Modelled from the spec: `calculate_probability_of_loss` — the fraction of
valid combinations whose IS-winner OOS quality falls below zero. -/
def calculate_probability_of_loss (e : OverfittingAnalysis) : ℚ :=
  (((validRecords e).countP (fun r => decide (r.winnerOosQuality < 0)) : ℕ) : ℚ) /
    ((validRecords e).length : ℚ)

/-- Modelled from the spec: `calculate_expected_return` — the mean over valid
combinations of the IS-winner's OOS return-denominated quality (the spec's
total-return transform re-evaluated per combination; the fractional-power
annualisation step is left out to stay in `ℚ`). -/
def calculate_expected_return (e : OverfittingAnalysis) : ℚ :=
  ((validRecords e).map (fun r => r.winnerOosQuality)).sum /
    ((validRecords e).length : ℚ)

/-- The three read-only statistics methods of the engine. -/
inductive StatMethod where
  | overfittingProbability
  | probabilityOfLoss
  | expectedReturn
deriving DecidableEq, Repr

/-- The pure value each statistics method derives from the engine store. -/
def evalStat (e : OverfittingAnalysis) : StatMethod → ℚ
  | .overfittingProbability => calculate_overfitting_probability e
  | .probabilityOfLoss => calculate_probability_of_loss e
  | .expectedReturn => calculate_expected_return e

/-- Invocation of one statistics method: the returned value together with the
engine as left behind by the call (the store is immutable). -/
def callStat (e : OverfittingAnalysis) (m : StatMethod) :
    ℚ × OverfittingAnalysis :=
  (evalStat e m, e)

/-- Execution of a sequence of statistics-method calls, threading the engine
state from call to call and collecting the returned values. -/
def runCalls (e : OverfittingAnalysis) : List StatMethod → List ℚ
  | [] => []
  | m :: ms => (callStat e m).1 :: runCalls (callStat e m).2 ms

/-- Arithmetic mean of a rational series (0 on the empty series). -/
def listMean (xs : List ℚ) : ℚ := xs.sum / (xs.length : ℚ)

/-- Modelled from the spec: `sharpe_ratio` (a Sharpe-like ratio, missing from
the sources) — mean return over a dispersion denominator (mean absolute
deviation standing in for the standard deviation to stay in `ℚ`), failing on
a zero-dispersion series. -/
def sharpe_ratio (xs : List ℚ) : Option ℚ :=
  let d := listMean (xs.map (fun x => |x - listMean xs|))
  if d = 0 then none else some (listMean xs / d)

/-- Modelled from the spec: `sorino_ratio` (a Sortino-like ratio, missing
from the sources) — mean return over a downside-deviation denominator (mean
magnitude of the negative returns), failing when no downside exists. -/
def sorino_ratio (xs : List ℚ) : Option ℚ :=
  let d := listMean (xs.map (fun x => if x < 0 then -x else 0))
  if d = 0 then none else some (listMean xs / d)

/-- Modelled from the spec: `omega_ratio` (an Omega-like ratio, missing from
the sources) — sum of gains over sum of loss magnitudes, failing when no
losses exist. -/
def omega_ratio (xs : List ℚ) : Option ℚ :=
  let losses := (xs.map (fun x => if x < 0 then -x else 0)).sum
  if losses = 0 then none else some ((xs.map (fun x => if 0 < x then x else 0)).sum / losses)

/-- Modelled from the spec: the `Total return` entry — cumulative total
return of the series, `∏ (1 + r) − 1`; total on every series. -/
def total_cumulative_return (xs : List ℚ) : Option ℚ :=
  some ((xs.map (fun r => 1 + r)).prod - 1)

/-- The `ranking_functions` mapping installed by
`BacktestOverfittingSheet.__init__`: four built-in name/function entries. -/
def initial_ranking_functions : List (String × RankFn) :=
  [("Sharpe Ratio", sharpe_ratio),
   ("Sortino Ratio", sorino_ratio),
   ("Omega Ratio", omega_ratio),
   ("Total return", total_cumulative_return)]

/-- State of a `BacktestOverfittingSheet`: the ranking-function registry and
the fields initialised by `__init__` and filled by
`setup_overfitting_analysis`. -/
structure BacktestOverfittingSheet where
  ranking_functions : List (String × RankFn)
  overfitting_analysis : List (String × OverfittingAnalysis)
  number_of_strategies : ℕ
  num_of_slices : ℕ

/-- Outcome of `BacktestOverfittingSheet.__init__`: either the process is
terminated (after optionally emitting a `UserWarning`) with an exit code, or
a sheet is constructed. -/
inductive InitResult where
  | exited (warnedUser : Bool) (exitCode : ℕ)
  | constructed (sheet : BacktestOverfittingSheet)

/-- The sheet state `__init__` builds when scipy is available. -/
def initialSheet : BacktestOverfittingSheet :=
  { ranking_functions := initial_ranking_functions
    overfitting_analysis := []
    number_of_strategies := 0
    num_of_slices := 0 }

/-- `BacktestOverfittingSheet.__init__` as a function of the
`is_scipy_installed` flag: with scipy missing it warns the user and calls
`exit(1)`; otherwise it constructs the sheet state. -/
def mkBacktestOverfittingSheet (scipyInstalled : Bool) : InitResult :=
  if ¬ scipyInstalled then
    .exited true 1
  else
    .constructed initialSheet

/-- Construction of one `OverfittingAnalysis` per registered ranking
function, propagating the first construction error. -/
def buildAnalyses (rets : ReturnsPanel) (n : ℕ) :
    List (String × RankFn) → Except QfError (List (String × OverfittingAnalysis))
  | [] => .ok []
  | (nm, f) :: rest =>
    match mkOverfittingAnalysis rets f n with
    | .error err => .error err
    | .ok oa =>
      match buildAnalyses rets n rest with
      | .error err => .error err
      | .ok l => .ok ((nm, oa) :: l)

/-- Tail of `setup_overfitting_analysis` once the argument check has passed
and the returns panel is resolved: construct one `OverfittingAnalysis` per
ranking function and store them on the sheet. -/
def setupBody (sheet : BacktestOverfittingSheet) (rets : ReturnsPanel)
    (numOfSlices : ℕ) : Except QfError BacktestOverfittingSheet :=
  match buildAnalyses rets numOfSlices sheet.ranking_functions with
  | .error err => .error err
  | .ok analyses =>
    .ok { sheet with
            overfitting_analysis := analyses
            number_of_strategies := rets.numStrategies
            num_of_slices := numOfSlices }

/-- `setup_overfitting_analysis`: raises `ValueError` unless exactly one of
`top_dir_path` and `strategies_returns` is given; then resolves the returns
(through the Timeseries loader when a directory was given) and constructs one
`OverfittingAnalysis` per ranking function.  The file-system loader is an
external collaborator, taken as a parameter. -/
def setup_overfitting_analysis (sheet : BacktestOverfittingSheet)
    (loader : String → ReturnsPanel) (top_dir_path : Option String)
    (strategies_returns : Option ReturnsPanel) (numOfSlices : ℕ) :
    Except QfError BacktestOverfittingSheet :=
  if top_dir_path.isNone = strategies_returns.isNone then
    .error .valueError
  else
    setupBody sheet
      (match strategies_returns with
        | some r => r
        | none => loader (top_dir_path.getD ""))
      numOfSlices

/-- Minimum of a rational series (0 on the empty series). -/
def listMin : List ℚ → ℚ
  | [] => 0
  | x :: t => t.foldl min x

/-- Maximum of a rational series (0 on the empty series). -/
def listMax : List ℚ → ℚ
  | [] => 0
  | x :: t => t.foldl max x

/-- Modelled from the spec: `QFSeries.min_max_normalized` (missing from the
sources) — elementwise `(x − min) / (max − min)`; on a constant series the
denominator is zero and the result is all zeros, as the claim describes. -/
def min_max_normalized (xs : List ℚ) : List ℚ :=
  xs.map (fun x => (x - listMin xs) / (listMax xs - listMin xs))

/-- Weights of the five optimisation factors, as in `PortfolioParameters`. -/
structure PortfolioParameters where
  min_port_vol_weight : ℚ
  max_mean_ret_weight : ℚ
  min_max_dd_weight : ℚ
  max_skewness_weight : ℚ
  max_up_vol_weight : ℚ

/-- The `MultiFactorPortfolio` inputs: covariance matrix, the four factor
series and the factor weights. -/
structure MultiFactorPortfolio where
  covariance_matrix : List (List ℚ)
  mean_return : List ℚ
  max_dd : List ℚ
  skewness : List ℚ
  upside_vol : List ℚ
  parameters : PortfolioParameters

/-- `MultiFactorPortfolio._normalize_vectors`: min-max normalisation of each
factor series, with a square-root transform on the drawdown and upside-
volatility factors (`Rat.sqrt` standing in for `np.sqrt`). -/
def MultiFactorPortfolio.normalize_vectors (p : MultiFactorPortfolio) :
    MultiFactorPortfolio :=
  { p with
      mean_return := min_max_normalized p.mean_return
      max_dd := (min_max_normalized p.max_dd).map Rat.sqrt
      skewness := min_max_normalized p.skewness
      upside_vol := (min_max_normalized p.upside_vol).map Rat.sqrt }

/-- Dot product of two rational vectors. -/
def dotProduct (a b : List ℚ) : ℚ :=
  ((a.zip b).map (fun xy => xy.1 * xy.2)).sum

/-- Matrix-vector product over rational lists. -/
def matVec (m : List (List ℚ)) (v : List ℚ) : List ℚ :=
  m.map (fun row => dotProduct row v)

/-- `MultiFactorPortfolio._get_equal_weights`: the vector assigning `1/n` to
each of the `n` assets. -/
def MultiFactorPortfolio.equal_weights (p : MultiFactorPortfolio) : List ℚ :=
  p.mean_return.map (fun _ => 1 / (p.mean_return.length : ℚ))

/-- The four dot-product denominators `get_weights` divides the covariance
impact by: the equal-weight vector dotted with each normalised factor vector
(mean return, max drawdown, skewness, upside volatility). -/
def MultiFactorPortfolio.get_weights_denominators (p0 : MultiFactorPortfolio) :
    List ℚ :=
  let p := p0.normalize_vectors
  let x := p.equal_weights
  [dotProduct x p.mean_return, dotProduct x p.max_dd,
   dotProduct x p.skewness, dotProduct x p.upside_vol]

/-- A division by zero happens inside `get_weights` exactly when one of the
four factor dot products is zero (the code has no zero guard). -/
def MultiFactorPortfolio.get_weights_divides_by_zero
    (p0 : MultiFactorPortfolio) : Prop :=
  0 ∈ p0.get_weights_denominators

instance (p0 : MultiFactorPortfolio) :
    Decidable p0.get_weights_divides_by_zero := by
  unfold MultiFactorPortfolio.get_weights_divides_by_zero
  infer_instance

/-- `MultiFactorPortfolio.get_weights`: normalise the factors, compute the
covariance impact of the equal-weight vector, divide it by each factor dot
product to build the linear term `q`, scale the covariance matrix into `P`,
and hand both to the quadratic optimizer (an external collaborator, taken as
a parameter). -/
def MultiFactorPortfolio.get_weights
    (optimizer : List (List ℚ) → List ℚ → List ℚ)
    (p0 : MultiFactorPortfolio) : List ℚ :=
  let p := p0.normalize_vectors
  let x := p.equal_weights
  let covariance_impact := (1 / 2) * dotProduct x (matVec p.covariance_matrix x)
  let mean_ret_norm_wt := covariance_impact / dotProduct x p.mean_return
  let max_dd_norm_wt := covariance_impact / dotProduct x p.max_dd
  let skewness_norm_wt := covariance_impact / dotProduct x p.skewness
  let up_vol_norm_wt := covariance_impact / dotProduct x p.upside_vol
  let mean_ret_part :=
    p.mean_return.map (fun v => mean_ret_norm_wt * p.parameters.max_mean_ret_weight * v * (-1))
  let min_max_dd_part :=
    p.max_dd.map (fun v => max_dd_norm_wt * p.parameters.min_max_dd_weight * v)
  let skewness_part :=
    p.skewness.map (fun v => skewness_norm_wt * p.parameters.max_skewness_weight * v * (-1))
  let up_vol_part :=
    p.upside_vol.map (fun v => up_vol_norm_wt * p.parameters.max_up_vol_weight * v * (-1))
  let q := (((mean_ret_part.zipWith (· + ·) min_max_dd_part).zipWith (· + ·)
      skewness_part).zipWith (· + ·) up_vol_part)
  let pMat := p.covariance_matrix.map (fun row => row.map (fun v => p.parameters.min_port_vol_weight * v))
  optimizer pMat q

/-! ### Helper lemmas -/

theorem mk_ok (p : ReturnsPanel) (f : RankFn) (n : ℕ) (h₁ : n % 2 = 0)
    (h₂ : 2 ≤ n) (h₃ : n ≤ p.rows.length) :
    mkOverfittingAnalysis p f n = .ok (engineOf p f n) := by
  unfold mkOverfittingAnalysis
  rw [if_neg]
  push_neg
  exact ⟨by omega, by omega, by omega⟩

theorem length_filterMap_id_add_countP_isNone {α : Type} :
    ∀ l : List (Option α),
      (l.filterMap id).length + l.countP (fun r => r.isNone) = l.length := by
  intro l
  induction l with
  | nil => rfl
  | cons hd tl ih =>
    cases hd with
    | none =>
      simp only [List.filterMap_cons, id_eq, List.countP_cons, Option.isNone_none,
        List.length_cons, if_true]
      omega
    | some a =>
      simp only [List.filterMap_cons, id_eq, List.countP_cons, Option.isNone_some,
        List.length_cons, Bool.false_eq_true, if_false]
      omega

theorem countP_div_length_cases (c n : ℕ) (hcn : c ≤ n) (hn : n ≤ 2) :
    (c : ℚ) / (n : ℚ) = 0 ∨ (c : ℚ) / (n : ℚ) = 1 / 2 ∨ (c : ℚ) / (n : ℚ) = 1 := by
  interval_cases n <;> interval_cases c <;> norm_num

theorem runCalls_eq_map (e : OverfittingAnalysis) :
    ∀ ms : List StatMethod, runCalls e ms = ms.map (evalStat e) := by
  intro ms
  induction ms with
  | nil => rfl
  | cons m tl ih => simp [runCalls, callStat, ih]

theorem buildAnalyses_ok_names (rets : ReturnsPanel) (n : ℕ) :
    ∀ (lst : List (String × RankFn)) (res : List (String × OverfittingAnalysis)),
      buildAnalyses rets n lst = .ok res → res.map Prod.fst = lst.map Prod.fst := by
  intro lst
  induction lst with
  | nil => intro res h; cases h; rfl
  | cons hd tl ih =>
    intro res h
    unfold buildAnalyses at h
    cases hmk : mkOverfittingAnalysis rets hd.2 n with
    | error err => rw [hmk] at h; cases h
    | ok oa =>
      rw [hmk] at h
      cases hrest : buildAnalyses rets n tl with
      | error err => rw [hrest] at h; cases h
      | ok l =>
        rw [hrest] at h
        cases h
        simp [ih l hrest]

theorem buildAnalyses_ne_valueError (rets : ReturnsPanel) (n : ℕ) :
    ∀ lst : List (String × RankFn),
      buildAnalyses rets n lst ≠ .error .valueError := by
  intro lst
  induction lst with
  | nil => intro h; cases h
  | cons hd tl ih =>
    intro h
    unfold buildAnalyses at h
    cases hmk : mkOverfittingAnalysis rets hd.2 n with
    | error err =>
      rw [hmk] at h
      have : err = QfError.valueError := by cases h; rfl
      subst this
      unfold mkOverfittingAnalysis at hmk
      by_cases hcond : n % 2 = 1 ∨ n < 2 ∨ rets.rows.length < n
      · rw [if_pos hcond] at hmk; cases hmk
      · rw [if_neg hcond] at hmk; cases hmk
    | ok oa =>
      rw [hmk] at h
      cases hrest : buildAnalyses rets n tl with
      | error err =>
        rw [hrest] at h
        cases h
        exact ih hrest
      | ok l => rw [hrest] at h; cases h

theorem combinations_length (n : ℕ) :
    (combinations n).length = n.choose (n / 2) := by
  simp [combinations, List.length_sublistsLen]

theorem combinations_nodup (n : ℕ) : (combinations n).Nodup := by
  have h1 : (combinations n).Sublist (List.range n).sublists' :=
    List.sublistsLen_sublist_sublists' _ _
  exact h1.nodup (List.nodup_sublists'.2 (List.nodup_range n))

theorem mem_combinations_subset {n : ℕ} {c : List ℕ}
    (h : c ∈ combinations n) : ∀ x ∈ c, x < n := by
  intro x hx
  have hsub : c.Sublist (List.range n) := (List.mem_sublistsLen.1 h).1
  exact List.mem_range.1 (hsub.subset hx)

theorem combination_disjoint_complement (n : ℕ) (c : List ℕ) :
    Disjoint c.toFinset (oosComplement n c).toFinset := by
  rw [Finset.disjoint_left]
  intro x hx hx2
  rw [List.mem_toFinset] at hx hx2
  simp only [oosComplement, List.mem_filter, decide_eq_true_eq] at hx2
  exact hx2.2 hx

theorem combination_union_complement {n : ℕ} {c : List ℕ}
    (h : c ∈ combinations n) :
    c.toFinset ∪ (oosComplement n c).toFinset = Finset.range n := by
  ext x
  simp only [Finset.mem_union, List.mem_toFinset, oosComplement,
    List.mem_filter, decide_eq_true_eq, List.mem_range, Finset.mem_range]
  constructor
  · rintro (hx | ⟨hx, _⟩)
    · exact mem_combinations_subset h x hx
    · exact hx
  · intro hx
    by_cases hc : x ∈ c
    · exact Or.inl hc
    · exact Or.inr ⟨hx, hc⟩

theorem setupBody_ne_valueError (sheet : BacktestOverfittingSheet)
    (rets : ReturnsPanel) (n : ℕ) :
    setupBody sheet rets n ≠ .error .valueError := by
  unfold setupBody
  cases hb : buildAnalyses rets n sheet.ranking_functions with
  | error err =>
    intro h
    have : err = QfError.valueError := by cases h; rfl
    exact buildAnalyses_ne_valueError rets n sheet.ranking_functions (this ▸ hb)
  | ok l => intro h; cases h

/-! ### Concrete sample inputs used by witnesses and counterexamples -/

/-- A two-row, one-strategy returns panel. -/
def samplePanel2 : ReturnsPanel := ⟨1, [[1], [2]]⟩

/-- An eight-row, one-strategy returns panel carrying the marker values `9`
(row 0, slice 0) and `8` (row 2, slice 1). -/
def samplePanel8 : ReturnsPanel :=
  ⟨1, [[9], [0], [8], [0], [0], [0], [0], [0]]⟩

/-- A returns-directory loader stub (an external collaborator). -/
def sampleLoader : String → ReturnsPanel := fun _ => samplePanel2

/-- A ranking function that fails exactly on sub-panels holding both marker
values `9` and `8` in one strategy series, and otherwise scores a series by
its sum. -/
def markerRankFn : RankFn :=
  fun xs => if (9 : ℚ) ∈ xs ∧ (8 : ℚ) ∈ xs then none else some xs.sum

/-! ### Claim theorems -/

/-- C8: when the optional scipy dependency is missing,
`BacktestOverfittingSheet.__init__` emits a `UserWarning` and terminates the
process with exit code 1, and never returns a constructed sheet (no typed
unavailability result reaches the caller). -/
theorem missing_scipy_warns_and_exits :
    mkBacktestOverfittingSheet false = .exited true 1 ∧
    ∀ s : BacktestOverfittingSheet,
      mkBacktestOverfittingSheet false ≠ .constructed s := by
  constructor
  · rfl
  · intro s h
    cases h

/-- C3: engine construction with an odd `num_of_slices`, a value below 2, or
a value exceeding the panel's row count fails with `ConfigurationError`; the
invalid value is never silently corrected into a successful construction,
and the error propagates through `setup_overfitting_analysis` to its
caller. -/
theorem invalid_num_of_slices_configuration_error (p : ReturnsPanel)
    (f : RankFn) (loader : String → ReturnsPanel) (n : ℕ)
    (hbad : n % 2 = 1 ∨ n < 2 ∨ p.rows.length < n) :
    mkOverfittingAnalysis p f n = .error .configurationError ∧
    (∀ e, mkOverfittingAnalysis p f n ≠ .ok e) ∧
    setup_overfitting_analysis initialSheet loader none (some p) n =
      .error .configurationError := by
  have hmk : ∀ g : RankFn,
      mkOverfittingAnalysis p g n = .error .configurationError := by
    intro g
    unfold mkOverfittingAnalysis
    rw [if_pos hbad]
  refine ⟨hmk f, ?_, ?_⟩
  · intro e he
    rw [hmk f] at he
    cases he
  · unfold setup_overfitting_analysis
    rw [if_neg (by simp)]
    unfold setupBody
    simp only [initialSheet, initial_ranking_functions]
    rw [show buildAnalyses p n
          [("Sharpe Ratio", sharpe_ratio), ("Sortino Ratio", sorino_ratio),
           ("Omega Ratio", omega_ratio), ("Total return", total_cumulative_return)] =
        .error .configurationError from by
      unfold buildAnalyses
      rw [hmk sharpe_ratio]]

/-- C3 witness: `num_of_slices = 3` (odd) is rejected at construction with
`ConfigurationError` on a concrete two-row panel. -/
theorem invalid_num_of_slices_configuration_error_witness :
    mkOverfittingAnalysis samplePanel2 sharpe_ratio 3 =
      .error .configurationError ∧
    (∀ e, mkOverfittingAnalysis samplePanel2 sharpe_ratio 3 ≠ .ok e) ∧
    setup_overfitting_analysis initialSheet sampleLoader none
      (some samplePanel2) 3 = .error .configurationError :=
  invalid_num_of_slices_configuration_error samplePanel2 sharpe_ratio
    sampleLoader 3 (Or.inl (by decide))

/-- C9: `setup_overfitting_analysis` raises `ValueError` exactly when both or
neither of `top_dir_path` and `strategies_returns` are given — regardless of
sheet state, panel contents or `num_of_slices`, so the check precedes any
`OverfittingAnalysis` construction — and when exactly one input is given the
result is never a `ValueError`. -/
theorem setup_requires_exactly_one_input (sheet : BacktestOverfittingSheet)
    (loader : String → ReturnsPanel) (top : Option String)
    (rets : Option ReturnsPanel) (n : ℕ) :
    (top.isNone = rets.isNone →
      setup_overfitting_analysis sheet loader top rets n = .error .valueError) ∧
    (top.isNone ≠ rets.isNone →
      setup_overfitting_analysis sheet loader top rets n ≠ .error .valueError) := by
  constructor
  · intro h
    unfold setup_overfitting_analysis
    rw [if_pos h]
  · intro h
    unfold setup_overfitting_analysis
    rw [if_neg h]
    exact setupBody_ne_valueError sheet _ n

/-- C9 witness: with neither input given, `setup_overfitting_analysis` on a
freshly constructed sheet raises `ValueError`; with exactly the returns data
frame given it does not. -/
theorem setup_requires_exactly_one_input_witness :
    setup_overfitting_analysis initialSheet sampleLoader none none 8 =
      .error .valueError ∧
    setup_overfitting_analysis initialSheet sampleLoader none
      (some samplePanel2) 8 ≠ .error .valueError :=
  ⟨(setup_requires_exactly_one_input initialSheet sampleLoader none none 8).1
      rfl,
   (setup_requires_exactly_one_input initialSheet sampleLoader none
      (some samplePanel2) 8).2 (by simp)⟩

/-- C2: for every even `num_of_slices ≥ 2` and panel with at least that many
rows, engine construction succeeds and the Partition Generator enumerates
exactly `C(num_of_slices, num_of_slices/2)` pairwise-distinct IS
combinations, and every combination's IS slice-index set is disjoint from
its OOS complement while their union is the full slice set. -/
theorem partition_generator_count_and_partition (p : ReturnsPanel)
    (f : RankFn) (n : ℕ) (h₁ : n % 2 = 0) (h₂ : 2 ≤ n)
    (h₃ : n ≤ p.rows.length) :
    mkOverfittingAnalysis p f n = .ok (engineOf p f n) ∧
    (engineOf p f n).combos.length = n.choose (n / 2) ∧
    (engineOf p f n).combos.Nodup ∧
    ∀ c ∈ (engineOf p f n).combos,
      Disjoint c.toFinset (oosComplement n c).toFinset ∧
      c.toFinset ∪ (oosComplement n c).toFinset = Finset.range n := by
  refine ⟨mk_ok p f n h₁ h₂ h₃, combinations_length n, combinations_nodup n, ?_⟩
  intro c hc
  exact ⟨combination_disjoint_complement n c, combination_union_complement hc⟩

/-- C2 witness: the theorem instantiated at a concrete two-row panel with
`num_of_slices = 2`. -/
theorem partition_generator_count_and_partition_witness :
    mkOverfittingAnalysis samplePanel2 total_cumulative_return 2 =
      .ok (engineOf samplePanel2 total_cumulative_return 2) ∧
    (engineOf samplePanel2 total_cumulative_return 2).combos.length =
      Nat.choose 2 (2 / 2) ∧
    (engineOf samplePanel2 total_cumulative_return 2).combos.Nodup ∧
    ∀ c ∈ (engineOf samplePanel2 total_cumulative_return 2).combos,
      Disjoint c.toFinset (oosComplement 2 c).toFinset ∧
      c.toFinset ∪ (oosComplement 2 c).toFinset = Finset.range 2 :=
  partition_generator_count_and_partition samplePanel2 total_cumulative_return
    2 (by decide) (by decide) (by decide)

/-- C1: for every engine store, `calculate_overfitting_probability` equals
the number of valid combinations whose logit is at most zero (the
IS-selected strategy at or below the OOS median) divided by the number of
valid combinations, and this value lies in the closed interval `[0, 1]`. -/
theorem overfitting_probability_fraction_in_unit_interval
    (e : OverfittingAnalysis) :
    calculate_overfitting_probability e =
      (((calculate_relative_rank_logits e).countP
          (fun l => decide (l ≤ 0)) : ℕ) : ℚ) /
        (((validRecords e).length : ℕ) : ℚ) ∧
    0 ≤ calculate_overfitting_probability e ∧
    calculate_overfitting_probability e ≤ 1 := by
  have hlen : (calculate_relative_rank_logits e).length =
      (validRecords e).length := by
    unfold calculate_relative_rank_logits
    exact List.length_map _ _
  have hle : (calculate_relative_rank_logits e).countP
      (fun l => decide (l ≤ 0)) ≤ (validRecords e).length := by
    rw [← hlen]
    exact List.countP_le_length _
  constructor
  · unfold calculate_overfitting_probability
    rw [hlen]
  · constructor
    · unfold calculate_overfitting_probability
      exact div_nonneg (by positivity) (by positivity)
    · unfold calculate_overfitting_probability
      rcases Nat.eq_zero_or_pos (calculate_relative_rank_logits e).length with h0 | hpos
      · rw [h0]
        norm_num
      · rw [div_le_one (by exact_mod_cast hpos)]
        exact_mod_cast List.countP_le_length _

/-- Supporting scenario: on the eight-row marker panel with four slices, the
marker ranking function fails on exactly the two combinations whose IS or
OOS sub-panel joins slices 0 and 1, and those two are recorded as skipped. -/
theorem markerRankFn_skips_two_combinations :
    skippedCount (engineOf samplePanel8 markerRankFn 4) = 2 ∧
    (engineOf samplePanel8 markerRankFn 4).combos.length = 6 := by
  constructor <;> decide

/-- C4: ranking-function failure on a combination's sub-panel does not crash
construction; the failing combinations are excluded, the exclusion is
observable as `skippedCount` (the number of combinations whose evaluation
failed), and the denominator of `calculate_overfitting_probability` is the
total combination count decreased by exactly the skipped count. -/
theorem failing_combinations_excluded_from_statistics (p : ReturnsPanel)
    (f : RankFn) (n : ℕ) (h₁ : n % 2 = 0) (h₂ : 2 ≤ n)
    (h₃ : n ≤ p.rows.length) :
    mkOverfittingAnalysis p f n = .ok (engineOf p f n) ∧
    skippedCount (engineOf p f n) =
      (combinations n).countP (fun c => (evalCombination p n f c).isNone) ∧
    (validRecords (engineOf p f n)).length + skippedCount (engineOf p f n) =
      (engineOf p f n).combos.length ∧
    calculate_overfitting_probability (engineOf p f n) =
      (((calculate_relative_rank_logits (engineOf p f n)).countP
          (fun l => decide (l ≤ 0)) : ℕ) : ℚ) /
        ((((engineOf p f n).combos.length -
            skippedCount (engineOf p f n) : ℕ)) : ℚ) := by
  have hrec : (engineOf p f n).records =
      (combinations n).map (evalCombination p n f) := rfl
  have hcombos : (engineOf p f n).combos = combinations n := rfl
  have hskip : skippedCount (engineOf p f n) =
      (combinations n).countP (fun c => (evalCombination p n f c).isNone) := by
    unfold skippedCount
    rw [hrec, List.countP_map]
    rfl
  have hsum : (validRecords (engineOf p f n)).length +
      skippedCount (engineOf p f n) = (engineOf p f n).combos.length := by
    unfold validRecords skippedCount
    rw [hrec, hcombos, length_filterMap_id_add_countP_isNone, List.length_map]
  refine ⟨mk_ok p f n h₁ h₂ h₃, hskip, hsum, ?_⟩
  have hvalid : (validRecords (engineOf p f n)).length =
      (engineOf p f n).combos.length - skippedCount (engineOf p f n) := by
    omega
  unfold calculate_overfitting_probability
  rw [show (calculate_relative_rank_logits (engineOf p f n)).length =
      (validRecords (engineOf p f n)).length from List.length_map _ _, hvalid]

/-- C4 witness: the theorem instantiated at the eight-row marker panel with
four slices and the marker ranking function (which fails on two of the six
combinations). -/
theorem failing_combinations_excluded_from_statistics_witness :
    mkOverfittingAnalysis samplePanel8 markerRankFn 4 =
      .ok (engineOf samplePanel8 markerRankFn 4) ∧
    skippedCount (engineOf samplePanel8 markerRankFn 4) =
      (combinations 4).countP
        (fun c => (evalCombination samplePanel8 4 markerRankFn c).isNone) ∧
    (validRecords (engineOf samplePanel8 markerRankFn 4)).length +
      skippedCount (engineOf samplePanel8 markerRankFn 4) =
      (engineOf samplePanel8 markerRankFn 4).combos.length ∧
    calculate_overfitting_probability (engineOf samplePanel8 markerRankFn 4) =
      (((calculate_relative_rank_logits
            (engineOf samplePanel8 markerRankFn 4)).countP
          (fun l => decide (l ≤ 0)) : ℕ) : ℚ) /
        ((((engineOf samplePanel8 markerRankFn 4).combos.length -
            skippedCount (engineOf samplePanel8 markerRankFn 4) : ℕ)) : ℚ) :=
  failing_combinations_excluded_from_statistics samplePanel8 markerRankFn 4
    (by decide) (by decide) (by decide)

/-- C5 counterexample: with `num_of_slices = 2` on a concrete two-row panel
the engine is constructed successfully, yet the Partition Generator yields
two combinations (`{0}` and `{1}`, a subset and its complement enumerated
separately), not one. -/
theorem num_slices_two_single_combination_counterexample :
    mkOverfittingAnalysis samplePanel2 total_cumulative_return 2 =
      .ok (engineOf samplePanel2 total_cumulative_return 2) ∧
    (engineOf samplePanel2 total_cumulative_return 2).combos.length ≠ 1 :=
  ⟨mk_ok samplePanel2 total_cumulative_return 2 (by decide) (by decide)
      (by decide),
    by decide⟩

/-- C5 amended: with `num_of_slices = 2` the Partition Generator yields
exactly 2 combinations (each slice subset and its complement are enumerated
separately), and `calculate_overfitting_probability` is one of `0`, `1/2`
or `1`. -/
theorem num_slices_two_two_combinations_pbo_cases (p : ReturnsPanel)
    (f : RankFn) (h₃ : 2 ≤ p.rows.length) :
    mkOverfittingAnalysis p f 2 = .ok (engineOf p f 2) ∧
    (engineOf p f 2).combos.length = 2 ∧
    (calculate_overfitting_probability (engineOf p f 2) = 0 ∨
     calculate_overfitting_probability (engineOf p f 2) = 1 / 2 ∨
     calculate_overfitting_probability (engineOf p f 2) = 1) := by
  refine ⟨mk_ok p f 2 rfl (le_refl 2) h₃, ?_, ?_⟩
  · rw [show (engineOf p f 2).combos = combinations 2 from rfl]
    decide
  have hrecords : (engineOf p f 2).records =
      (combinations 2).map (evalCombination p 2 f) := rfl
  have hvalid : (validRecords (engineOf p f 2)).length ≤ 2 := by
    unfold validRecords
    calc ((engineOf p f 2).records.filterMap id).length
        ≤ (engineOf p f 2).records.length := List.length_filterMap_le _ _
      _ = (combinations 2).length := by rw [hrecords, List.length_map]
      _ = 2 := by decide
  have hlog : (calculate_relative_rank_logits (engineOf p f 2)).length =
      (validRecords (engineOf p f 2)).length := List.length_map _ _
  unfold calculate_overfitting_probability
  exact countP_div_length_cases _ _ (List.countP_le_length _) (hlog ▸ hvalid)

/-- C5 amended witness: the amended theorem instantiated at the concrete
two-row panel. -/
theorem num_slices_two_two_combinations_pbo_cases_witness :
    mkOverfittingAnalysis samplePanel2 total_cumulative_return 2 =
      .ok (engineOf samplePanel2 total_cumulative_return 2) ∧
    (engineOf samplePanel2 total_cumulative_return 2).combos.length = 2 ∧
    (calculate_overfitting_probability
        (engineOf samplePanel2 total_cumulative_return 2) = 0 ∨
     calculate_overfitting_probability
        (engineOf samplePanel2 total_cumulative_return 2) = 1 / 2 ∨
     calculate_overfitting_probability
        (engineOf samplePanel2 total_cumulative_return 2) = 1) :=
  num_slices_two_two_combinations_pbo_cases samplePanel2
    total_cumulative_return (by decide)

/-- C6: each statistics method is a pure function of the immutable engine
store — a call returns `evalStat` of the store no matter which statistics
calls preceded it, so calling any method twice with no intervening mutation,
in any order of invocation, yields identical results. -/
theorem statistics_methods_pure_and_order_independent
    (e : OverfittingAnalysis) (m : StatMethod)
    (ms₁ ms₂ : List StatMethod) :
    (runCalls e (ms₁ ++ [m])).getLast? = some (evalStat e m) ∧
    (runCalls e (ms₁ ++ [m])).getLast? =
      (runCalls e (ms₂ ++ [m])).getLast? := by
  have key : ∀ ms : List StatMethod,
      (runCalls e (ms ++ [m])).getLast? = some (evalStat e m) := by
    intro ms
    rw [runCalls_eq_map, List.map_append]
    simp [List.getLast?_concat]
  exact ⟨key ms₁, (key ms₁).trans (key ms₂).symm⟩

/-- C7: the sheet ships exactly four built-in ranking-function entries — a
Sharpe-like ratio, a Sortino-like ratio, an Omega-like ratio and cumulative
total return, each a series-to-scalar capability — and
`setup_overfitting_analysis` constructs one `OverfittingAnalysis` per
registered ranking function, keyed by its name. -/
theorem builtin_ranking_functions_and_setup (rets : ReturnsPanel)
    (loader : String → ReturnsPanel) (n : ℕ) (h₁ : n % 2 = 0) (h₂ : 2 ≤ n)
    (h₃ : n ≤ rets.rows.length) :
    initial_ranking_functions.length = 4 ∧
    initial_ranking_functions.map Prod.fst =
      ["Sharpe Ratio", "Sortino Ratio", "Omega Ratio", "Total return"] ∧
    mkBacktestOverfittingSheet true = .constructed initialSheet ∧
    (setup_overfitting_analysis initialSheet loader none (some rets) n).map
        (fun r => r.overfitting_analysis.map Prod.fst) =
      .ok ["Sharpe Ratio", "Sortino Ratio", "Omega Ratio", "Total return"] := by
  refine ⟨rfl, rfl, rfl, ?_⟩
  have hmk : ∀ g : RankFn,
      mkOverfittingAnalysis rets g n = .ok (engineOf rets g n) :=
    fun g => mk_ok rets g n h₁ h₂ h₃
  unfold setup_overfitting_analysis
  rw [if_neg (by simp)]
  unfold setupBody initialSheet initial_ranking_functions
  simp only [buildAnalyses, hmk]
  rfl

/-- C7 witness: the theorem instantiated at the concrete two-row panel with
`num_of_slices = 2`. -/
theorem builtin_ranking_functions_and_setup_witness :
    initial_ranking_functions.length = 4 ∧
    initial_ranking_functions.map Prod.fst =
      ["Sharpe Ratio", "Sortino Ratio", "Omega Ratio", "Total return"] ∧
    mkBacktestOverfittingSheet true = .constructed initialSheet ∧
    (setup_overfitting_analysis initialSheet sampleLoader none
        (some samplePanel2) 2).map
        (fun r => r.overfitting_analysis.map Prod.fst) =
      .ok ["Sharpe Ratio", "Sortino Ratio", "Omega Ratio", "Total return"] :=
  builtin_ranking_functions_and_setup samplePanel2 sampleLoader 2
    (by decide) (by decide) (by decide)

/-- A concrete two-asset portfolio input whose `mean_return` factor series is
constant, so its min-max normalization is all zeros. -/
def constantFactorPortfolio : MultiFactorPortfolio :=
  { covariance_matrix := [[1, 0], [0, 1]]
    mean_return := [3, 3]
    max_dd := [1, 2]
    skewness := [0, 1]
    upside_vol := [1, 4]
    parameters := ⟨1, 1, 1, 1, 1⟩ }

/-- C10: `get_weights` divides the covariance impact by the dot product of
the equal-weight vector with each normalised factor vector with no zero
guard; on the concrete constant `mean_return` series the min-max
normalization is all zeros, the corresponding dot product is zero, and a
division by zero occurs inside the public `get_weights` operation. -/
theorem get_weights_division_by_zero_on_constant_factor :
    min_max_normalized constantFactorPortfolio.mean_return = [0, 0] ∧
    constantFactorPortfolio.get_weights_denominators =
      [0, 1 / 2, 1 / 2, 1 / 2] ∧
    constantFactorPortfolio.get_weights_divides_by_zero := by
  have h1 : min_max_normalized constantFactorPortfolio.mean_return = [0, 0] := by
    unfold constantFactorPortfolio min_max_normalized listMin listMax
    norm_num
  have h2 : constantFactorPortfolio.get_weights_denominators =
      [0, 1 / 2, 1 / 2, 1 / 2] := by
    unfold MultiFactorPortfolio.get_weights_denominators
      MultiFactorPortfolio.normalize_vectors MultiFactorPortfolio.equal_weights
      constantFactorPortfolio min_max_normalized listMin listMax dotProduct
    norm_num [Rat.sqrt]
  refine ⟨h1, h2, ?_⟩
  unfold MultiFactorPortfolio.get_weights_divides_by_zero
  rw [h2]
  simp
